import Mathlib

/-!
Verification of the FORE token ledger and gamification engine of the
CASH_FOR_ENGLISH_BACK repository (Django, `apps/rewards`).

The Python source is shallowly embedded: Django model rows become Lean
structures, `Decimal` amounts become `ℤ` (the source only adds, subtracts
and compares amounts, which `ℤ` models exactly), raising `ValueError`
becomes returning an `Except` error, and the database is passed around as
explicit state.  Every definition follows the corresponding function in
`src/apps/rewards/models.py`, `src/apps/rewards/signals.py` or
`src/apps/rewards/views.py`.
-/

deriving instance DecidableEq for Except

namespace CashForEnglish

/-- Error kinds of the ledger, per the spec's error taxonomy.
`FOREWallet.add_tokens` raises `ValueError("La cantidad debe ser positiva")`
(= `InvalidAmount`); `FOREWallet.spend_tokens` raises
`ValueError("Balance insuficiente")` (= `InsufficientBalance`). -/
inductive WalletError where
  | InvalidAmount
  | InsufficientBalance
deriving Repr, DecidableEq

/-- `FOREWallet` row (`models.py`): balance, lifetime totals and the frozen
amount, all `Decimal` fields defaulting to `0.00`. -/
structure FOREWallet where
  balance : ℤ
  total_earned : ℤ
  total_spent : ℤ
  frozen_amount : ℤ
deriving Repr, DecidableEq

/-- One `Transaction` row as created by `add_tokens` / `spend_tokens`
(`models.py`): signed amount, balance snapshot after the movement, and the
nullable references that the signal handlers later fill in via
`Transaction.objects.filter(description__contains=...).update(...)`. -/
structure Tx where
  transaction_type : String
  amount : ℤ
  balance_after : ℤ
  description : String
  related_course : Option Nat
  related_lesson : Option Nat
  related_quiz : Option Nat
  related_achievement : Option Nat
deriving Repr, DecidableEq

/-- `FOREWallet.available_balance`: `balance - frozen_amount`. -/
def FOREWallet.available_balance (w : FOREWallet) : ℤ :=
  w.balance - w.frozen_amount

/-- `FOREWallet.can_spend`: `available_balance >= amount`. -/
def FOREWallet.can_spend (w : FOREWallet) (amount : ℤ) : Bool :=
  decide (amount ≤ w.available_balance)

/-- `FOREWallet.add_tokens` (`models.py` lines 104-132): rejects
`amount <= 0`, otherwise adds `amount` to `balance` and `total_earned` and
creates one `Transaction` with `amount = +amount` and `balance_after` equal
to the post-credit balance.  References are not set here (the row is created
without them). -/
def FOREWallet.add_tokens (w : FOREWallet) (amount : ℤ)
    (description transaction_type : String) :
    Except WalletError (FOREWallet × Tx) :=
  if amount ≤ 0 then
    .error .InvalidAmount
  else
    let w' : FOREWallet :=
      ⟨w.balance + amount, w.total_earned + amount, w.total_spent,
        w.frozen_amount⟩
    .ok (w', ⟨transaction_type, amount, w'.balance, description,
      none, none, none, none⟩)

/-- `FOREWallet.spend_tokens` (`models.py` lines 134-162): rejects only when
`can_spend` fails (there is no positivity check in the source), otherwise
subtracts `amount` from `balance`, adds it to `total_spent`, and creates one
`Transaction` with `amount = -amount`. -/
def FOREWallet.spend_tokens (w : FOREWallet) (amount : ℤ)
    (description transaction_type : String) :
    Except WalletError (FOREWallet × Tx) :=
  if w.can_spend amount = false then
    .error .InsufficientBalance
  else
    let w' : FOREWallet :=
      ⟨w.balance - amount, w.total_earned, w.total_spent + amount,
        w.frozen_amount⟩
    .ok (w', ⟨transaction_type, -amount, w'.balance, description,
      none, none, none, none⟩)

/-- A freshly created wallet: all `Decimal` fields default to `0.00`. -/
def freshWallet : FOREWallet := ⟨0, 0, 0, 0⟩

/-- A wallet together with the user's transaction log, in creation order. -/
structure WalletState where
  wallet : FOREWallet
  txs : List Tx
deriving Repr, DecidableEq

/-- Initial state: fresh wallet, empty transaction log. -/
def initState : WalletState := ⟨freshWallet, []⟩

/-- One ledger operation: a credit via `add_tokens` or a debit via
`spend_tokens`, with the description / transaction-type arguments of the
source methods. -/
inductive WalletOp where
  | credit (amount : ℤ) (description transaction_type : String)
  | debit (amount : ℤ) (description transaction_type : String)
deriving Repr, DecidableEq

/-- Apply one operation: on success the wallet row is updated and the
transaction row is appended to the log (both inside the same unit, as in the
source method bodies); on failure the exception leaves the state untouched
(the `raise` happens before any mutation in the source). -/
def applyOp (st : WalletState) : WalletOp → Except WalletError WalletState
  | .credit amount d t =>
    match st.wallet.add_tokens amount d t with
    | .ok p => .ok ⟨p.1, st.txs ++ [p.2]⟩
    | .error e => .error e
  | .debit amount d t =>
    match st.wallet.spend_tokens amount d t with
    | .ok p => .ok ⟨p.1, st.txs ++ [p.2]⟩
    | .error e => .error e

/-- Run a sequence of operations, stopping at the first failure. -/
def runOps : WalletState → List WalletOp → Except WalletError WalletState
  | st, [] => .ok st
  | st, op :: rest =>
    match applyOp st op with
    | .ok st' => runOps st' rest
    | .error e => .error e

/-- Sum of the amounts of the credit operations in a sequence. -/
def creditSum : List WalletOp → ℤ
  | [] => 0
  | .credit a _ _ :: rest => a + creditSum rest
  | .debit _ _ _ :: rest => creditSum rest

/-- Sum of the amounts of the debit operations in a sequence. -/
def debitSum : List WalletOp → ℤ
  | [] => 0
  | .credit _ _ _ :: rest => debitSum rest
  | .debit a _ _ :: rest => a + debitSum rest

/-- The transaction-chain property: each transaction's `balance_after`
equals the previous `balance_after` (or the starting balance `prev` for the
first transaction) plus the transaction's signed `amount`. -/
def txChain (prev : ℤ) : List Tx → Prop
  | [] => True
  | t :: rest => t.balance_after = prev + t.amount ∧ txChain t.balance_after rest

instance (prev : ℤ) (l : List Tx) : Decidable (txChain prev l) := by
  induction l generalizing prev with
  | nil => exact isTrue trivial
  | cons t rest ih =>
    have hrest : Decidable (txChain t.balance_after rest) := ih t.balance_after
    exact instDecidableAnd

/-- `balance_after` of the most recent transaction, or `prev` if none. -/
def lastBalanceFrom (prev : ℤ) : List Tx → ℤ
  | [] => prev
  | t :: rest => lastBalanceFrom t.balance_after rest

/-- Substring containment, modelling Django's `description__contains=...`
filter: the pattern's characters occur as a contiguous infix. -/
def strContains (s pat : String) : Bool :=
  decide (pat.data <:+: s.data)

/-- `Achievement` catalog row (`models.py`): token reward, the five numeric
thresholds (0 means "not required"), activity flag, secrecy flag and the
optional recipients cap. -/
structure Achievement where
  id : Nat
  title : String
  fore_tokens_reward : Nat
  required_courses : Nat
  required_lessons : Nat
  required_quizzes : Nat
  required_streak_days : Nat
  required_fore_tokens : Nat
  is_active : Bool
  is_secret : Bool
  max_recipients : Option Nat
deriving Repr, DecidableEq

/-- The `progress_when_earned` JSON snapshot stored on a grant
(`signals.py` `check_achievements_for_user`); the wall-clock timestamp of
the source dict is outside the model. -/
structure ProgressSnapshot where
  activity_type : String
  total_courses : Nat
  total_lessons : Nat
  total_quizzes : Nat
  total_fore_earned : ℤ
deriving Repr, DecidableEq

/-- `UserAchievement` row: the fact that `user` earned `achievement`, with
the token amount snapshotted at grant time. -/
structure Grant where
  user : Nat
  achievement : Nat
  fore_tokens_awarded : Nat
  progress_when_earned : ProgressSnapshot
deriving Repr, DecidableEq

/-- The user's cumulative activity counters, as queried from the courses
app by `Achievement.check_achievement`: completed-course count,
completed-lesson count, distinct-passed-quiz count.  `streak_days` is the
user's streak length per the spec; the source declares the
`required_streak_days` criterion but leaves its check as a TODO and never
reads any streak value. -/
structure ActivityStats where
  completed_courses : Nat
  completed_lessons : Nat
  passed_quizzes : Nat
  streak_days : Nat
deriving Repr, DecidableEq

/-- `UserAchievement.objects.filter(user=user).exists()` for a given
achievement id, over the grant table. -/
def grantedTo (grants : List Grant) (user aid : Nat) : Bool :=
  grants.any fun g => decide (g.user = user ∧ g.achievement = aid)

/-- `Achievement.recipients_count`: number of grant rows referencing the
achievement. -/
def recipientsCount (grants : List Grant) (aid : Nat) : Nat :=
  (grants.filter fun g => decide (g.achievement = aid)).length

/-- `Achievement.is_available` (`models.py` lines 449-458): inactive
achievements are unavailable; `if self.max_recipients and
recipients_count >= max_recipients` — by Python truthiness a cap of `None`
or `0` is not enforced. -/
def Achievement.is_available (a : Achievement) (grants : List Grant) : Bool :=
  if a.is_active = false then false
  else
    match a.max_recipients with
    | some m => if 0 < m ∧ m ≤ recipientsCount grants a.id then false else true
    | none => true

/-- The tokens-earned criterion block of `check_achievement`
(`models.py` lines 508-515): when `required_fore_tokens > 0`, the user's
wallet must exist and its `total_earned` must reach the threshold. -/
def tokensGate (a : Achievement) (walletTE : Option ℤ) : Bool :=
  if 0 < a.required_fore_tokens then
    match walletTE with
    | some te =>
      if te < (a.required_fore_tokens : ℤ) then false else true
    | none => false
  else true

/-- `Achievement.check_achievement` (`models.py` lines 460-520): false if
already granted to the user or unavailable, then each declared (non-zero)
threshold is tested in turn against the user's stats; the streak-days block
is a TODO in the source and performs no check; finally `return True`.
`walletTE` is `user.fore_wallet.total_earned` (`none` = wallet missing). -/
def Achievement.check_achievement (a : Achievement) (grants : List Grant)
    (user : Nat) (stats : ActivityStats) (walletTE : Option ℤ) : Bool :=
  if grantedTo grants user a.id then false
  else if a.is_available grants = false then false
  else if 0 < a.required_courses ∧ stats.completed_courses < a.required_courses then
    false
  else if 0 < a.required_lessons ∧ stats.completed_lessons < a.required_lessons then
    false
  else if 0 < a.required_quizzes ∧ stats.passed_quizzes < a.required_quizzes then
    false
  else tokensGate a walletTE

/-- Modelled from the spec: "An achievement is satisfied only if every
non-zero threshold it declares is met" over the stat vector
(completed-course count, completed-lesson count, distinct-passed-quiz
count, lifetime tokens earned, streak length).  This is the spec-side
predicate that claim C6 compares `check_achievement` against. -/
def specThresholdsMet (a : Achievement) (stats : ActivityStats)
    (tokensEarned : ℤ) : Bool :=
  decide ((0 < a.required_courses → a.required_courses ≤ stats.completed_courses) ∧
    (0 < a.required_lessons → a.required_lessons ≤ stats.completed_lessons) ∧
    (0 < a.required_quizzes → a.required_quizzes ≤ stats.passed_quizzes) ∧
    (0 < a.required_streak_days → a.required_streak_days ≤ stats.streak_days) ∧
    (0 < a.required_fore_tokens → (a.required_fore_tokens : ℤ) ≤ tokensEarned))

/-- The rewards-engine state threaded through the signal handlers: the
grant table, the user's wallet row and the user's transaction log. -/
structure EngineState where
  grants : List Grant
  wallet : FOREWallet
  txs : List Tx
deriving Repr, DecidableEq

/-- The `progress_when_earned` dict built in `check_achievements_for_user`. -/
def mkSnapshot (activity_type : String) (stats : ActivityStats)
    (st : EngineState) : ProgressSnapshot :=
  ⟨activity_type, stats.completed_courses, stats.completed_lessons,
    stats.passed_quizzes, st.wallet.total_earned⟩

/-- The post-hoc reference update
`Transaction.objects.filter(description__contains=title).update(related_achievement=...)`
(`signals.py` lines 158-163): every transaction of the user whose
description contains the achievement title gets its `related_achievement`
set. -/
def updateRelatedAchievement (title : String) (aid : Nat)
    (txs : List Tx) : List Tx :=
  txs.map fun t =>
    if strContains t.description title then
      ⟨t.transaction_type, t.amount, t.balance_after, t.description,
        t.related_course, t.related_lesson, t.related_quiz, some aid⟩
    else t

/-- The `reward_achievement_earned` signal handler (`signals.py` lines
141-166): on grant creation, credit the wallet with the snapshotted token
amount (type `achievement_earned`) and stamp the matching transactions with
the achievement reference.  `add_tokens` raising (amount `<= 0`) escapes
the handler — only `FOREWallet.DoesNotExist` is caught in the source — so
the error is propagated while the already-inserted grant row remains. -/
def rewardAchievementEarned (title : String) (aid : Nat) (g : Grant)
    (st : EngineState) : EngineState × Option WalletError :=
  match st.wallet.add_tokens (g.fore_tokens_awarded : ℤ)
      ("Logro obtenido: " ++ title) ("achievement_earned") with
  | .ok p =>
    (⟨st.grants, p.1, updateRelatedAchievement title aid (st.txs ++ [p.2])⟩,
      none)
  | .error e => (st, some e)

/-- Result of an achievement-evaluation run: final state, the grants made
by the run, and the first uncaught error (which aborts the loop). -/
structure RunResult where
  state : EngineState
  granted : List Grant
  err : Option WalletError
deriving Repr, DecidableEq

/-- One loop iteration of `check_achievements_for_user`: evaluate
`check_achievement`; when satisfied, insert the `UserAchievement` row
(whose `save` snapshots `fore_tokens_awarded = fore_tokens_reward` because
the field is created unset) and fire `reward_achievement_earned`. -/
def grantStep (user : Nat) (activity_type : String) (stats : ActivityStats)
    (st : EngineState) (a : Achievement) : RunResult :=
  if a.check_achievement st.grants user stats (some st.wallet.total_earned) then
    let g : Grant := ⟨user, a.id, a.fore_tokens_reward,
      mkSnapshot activity_type stats st⟩
    let st1 : EngineState := ⟨st.grants ++ [g], st.wallet, st.txs⟩
    let p := rewardAchievementEarned a.title a.id g st1
    ⟨p.1, [g], p.2⟩
  else ⟨st, [], none⟩

/-- The evaluation loop over the available achievements; an uncaught
exception from a grant aborts the remaining iterations. -/
def runAvail (user : Nat) (activity_type : String) (stats : ActivityStats) :
    List Achievement → EngineState → RunResult
  | [], st => ⟨st, [], none⟩
  | a :: rest, st =>
    let r := grantStep user activity_type stats st a
    match r.err with
    | some e => ⟨r.state, r.granted, some e⟩
    | none =>
      let rr := runAvail user activity_type stats rest r.state
      ⟨rr.state, r.granted ++ rr.granted, rr.err⟩

/-- `check_achievements_for_user` (`signals.py` lines 169-207): iterate
over the active achievements the user does not yet have (the queryset is
evaluated at loop entry, against the grant table as it is then) and grant
each satisfied one. -/
def check_achievements_for_user (catalog : List Achievement) (user : Nat)
    (activity_type : String) (stats : ActivityStats)
    (st : EngineState) : RunResult :=
  let avail := catalog.filter fun a =>
    a.is_active && ! grantedTo st.grants user a.id
  runAvail user activity_type stats avail st

/-- No two grant rows share the same (user, achievement) pair — the
`unique_together = [['user', 'achievement']]` constraint. -/
def NoDupPairs (grants : List Grant) : Prop :=
  grants.Pairwise fun g1 g2 =>
    ¬ (g1.user = g2.user ∧ g1.achievement = g2.achievement)

/-- `LeaderboardCategory` choices (`models.py`). -/
inductive LeaderboardCategory where
  | fore_tokens
  | courses_completed
  | lessons_completed
  | quizzes_passed
  | achievements_earned
  | streak_days
deriving Repr, DecidableEq

/-- `LeaderboardPeriod` choices (`models.py`). -/
inductive LeaderboardPeriod where
  | daily
  | weekly
  | monthly
  | all_time
deriving Repr, DecidableEq

/-- `Leaderboard` row: the fields `update_rankings` and `UserRanking.save`
read. -/
structure Leaderboard where
  category : LeaderboardCategory
  period : LeaderboardPeriod
  is_active : Bool
  max_positions : Nat
  first_place_reward : Nat
  second_place_reward : Nat
  third_place_reward : Nat
deriving Repr, DecidableEq

/-- The per-user inputs of the scoring queries in
`Leaderboard.update_rankings`: the wallet (absent = `FOREWallet.DoesNotExist`,
scoring 0 for the token category), the sum of the user's positive-amount
transactions inside the leaderboard's scoring window, and the in-window
counts of completed courses, completed lessons, distinct passed quizzes and
earned achievements (for `all_time` the window is unbounded). -/
structure UserActivity where
  wallet_total_earned : Option ℤ
  fore_earned_window : ℤ
  courses_completed : Nat
  lessons_completed : Nat
  quizzes_passed : Nat
  achievements_earned : Nat
deriving Repr, DecidableEq

/-- The category dispatch of `update_rankings` (`models.py` lines 714-775):
one scoring branch per category; a missing wallet scores 0 for the token
category; there is no `STREAK_DAYS` branch in the source, so that category
leaves the initial `score = 0`. -/
def scoreFor (cat : LeaderboardCategory) (period : LeaderboardPeriod)
    (act : UserActivity) : ℤ :=
  match cat with
  | .fore_tokens =>
    match act.wallet_total_earned with
    | some te =>
      match period with
      | .all_time => te
      | _ => act.fore_earned_window
    | none => 0
  | .courses_completed => (act.courses_completed : ℤ)
  | .lessons_completed => (act.lessons_completed : ℤ)
  | .quizzes_passed => (act.quizzes_passed : ℤ)
  | .achievements_earned => (act.achievements_earned : ℤ)
  | .streak_days => 0

/-- `UserRanking` row for the current computation. -/
structure UserRanking where
  user : Nat
  position : Nat
  score : ℤ
  reward_amount : Nat
  reward_claimed : Bool
deriving Repr, DecidableEq

/-- `UserRanking.save` (`models.py` lines 870-880): positions 1-3 get the
leaderboard's configured amounts, every other position keeps the default 0. -/
def rewardFor (lb : Leaderboard) (position : Nat) : Nat :=
  if position = 1 then lb.first_place_reward
  else if position = 2 then lb.second_place_reward
  else if position = 3 then lb.third_place_reward
  else 0

/-- Insert into a score-descending list, keeping the inserted element in
front of entries with an equal or smaller score.  Folding this from the
right computes exactly the result of Python's stable
`user_scores.sort(key=lambda x: x[1], reverse=True)`: scores are
non-increasing and entries with equal scores keep their input order. -/
def insertScored (p : Nat × ℤ) : List (Nat × ℤ) → List (Nat × ℤ)
  | [] => [p]
  | q :: rest =>
    if q.2 ≤ p.2 then p :: q :: rest else q :: insertScored p rest

/-- The stable descending sort of the `(user, score)` pairs. -/
def sortScoredDesc (l : List (Nat × ℤ)) : List (Nat × ℤ) :=
  l.foldr insertScored []

/-- `enumerate(user_scores[:max_positions], 1)`: assign dense 1-based
positions, computing each row's reward as `UserRanking.save` does. -/
def assignPositions (lb : Leaderboard) : Nat → List (Nat × ℤ) → List UserRanking
  | _, [] => []
  | pos, p :: rest =>
    ⟨p.1, pos, p.2, rewardFor lb pos, false⟩ :: assignPositions lb (pos + 1) rest

/-- A contiguous run of `n` positions starting at `start` (the shape
`1..N` takes in claim C8). -/
def posRange (start : Nat) : Nat → List Nat
  | 0 => []
  | n + 1 => start :: posRange (start + 1) n

/-- `Leaderboard.update_rankings` (`models.py` lines 699-790): the prior
ranking rows are deleted and fully replaced.  `users` is the
`User.objects.filter(role='student', is_active=True)` queryset paired with
each user's activity, in queryset order; per user a scalar score is
computed by category, zero scores are discarded, the list is stably sorted
descending by score, truncated to `max_positions`, and dense positions are
assigned from 1. -/
def update_rankings (lb : Leaderboard) (users : List (Nat × UserActivity)) :
    List UserRanking :=
  let user_scores :=
    (users.map fun p => (p.1, scoreFor lb.category lb.period p.2)).filter
      fun p => decide (0 < p.2)
  assignPositions lb 1 ((sortScoredDesc user_scores).take lb.max_positions)

/-- `Reward` marketplace catalog row: the fields `is_available`,
`can_redeem` and the `redeem` view read and write. -/
structure Reward where
  title : String
  fore_cost : Nat
  is_active : Bool
  stock_quantity : Option Nat
  max_per_user : Option Nat
  available_from : Option Nat
  available_until : Option Nat
  requires_shipping : Bool
  total_redeemed : Nat
deriving Repr, DecidableEq

/-- `Reward.is_available` (`models.py` lines 1030-1047): active, inside the
availability window (instants modelled as naturals), and — when
`stock_quantity` is set — stock strictly positive. -/
def Reward.is_available (r : Reward) (now : Nat) : Bool :=
  if r.is_active = false then false
  else if (match r.available_from with
      | some f => decide (now < f)
      | none => false) then false
  else if (match r.available_until with
      | some u => decide (u < now)
      | none => false) then false
  else if (match r.stock_quantity with
      | some s => decide (s ≤ 0)
      | none => false) then false
  else true

/-- `Reward.can_redeem` (`models.py` lines 1049-1068), returning the
`(bool, message)` pair of the source: availability, then wallet balance
(`none` = no wallet), then the per-user redemption limit (`if
self.max_per_user:` skips the check for `None` and, by truthiness, `0`). -/
def Reward.can_redeem (r : Reward) (now : Nat) (wallet : Option FOREWallet)
    (user_redemptions : Nat) : Bool × String :=
  if r.is_available now = false then (false, "Recompensa no disponible")
  else
    match wallet with
    | none => (false, "No tienes una billetera FORE")
    | some w =>
      if w.can_spend (r.fore_cost : ℤ) = false then
        (false, "Balance FORE insuficiente")
      else
        match r.max_per_user with
        | some m =>
          if 0 < m ∧ m ≤ user_redemptions then
            (false, "Límite de " ++ toString m ++
              " canjes por usuario alcanzado")
          else (true, "Puede canjear")
        | none => (true, "Puede canjear")

/-- `RewardRedemption` row as created by the `redeem` view; its `save`
snapshots `fore_cost` from the reward and generates the redemption code
(the code is a `uuid4` fragment, passed in here as `redemption_code`). -/
structure Redemption where
  user : Nat
  fore_cost : Nat
  delivery_address : String
  delivery_phone : String
  redemption_code : String
  status : String
deriving Repr, DecidableEq

/-- State touched by the `redeem` view: the requesting user's wallet and
transaction log, the reward row, and the user's existing redemption rows
for this reward. -/
structure RedeemState where
  wallet : FOREWallet
  txs : List Tx
  reward : Reward
  user_redemptions : List Redemption
deriving Repr, DecidableEq

/-- `RewardViewSet.redeem` (`views.py` lines 246-302): validate via
`can_redeem` (read-only, a failure returns 400 with the message and touches
nothing); then debit the wallet for `fore_cost` (type `reward_purchase`),
create the redemption row, increment `total_redeemed` and decrement
`stock_quantity` when finite.  A `spend_tokens` exception is caught and
returned as a 400 error string. -/
def redeem (st : RedeemState) (user : Nat) (now : Nat)
    (delivery_address delivery_phone redemption_code : String) :
    RedeemState × Except String Redemption :=
  let cr := st.reward.can_redeem now (some st.wallet) st.user_redemptions.length
  if cr.1 = false then (st, .error cr.2)
  else
    match st.wallet.spend_tokens (st.reward.fore_cost : ℤ)
        ("Canje de recompensa: " ++ st.reward.title) ("reward_purchase") with
    | .error _ => (st, .error ("Balance insuficiente"))
    | .ok p =>
      let red : Redemption := ⟨user, st.reward.fore_cost, delivery_address,
        delivery_phone, redemption_code, "pending"⟩
      let r := st.reward
      let r' : Reward := ⟨r.title, r.fore_cost, r.is_active,
        (match r.stock_quantity with
          | some s => some (s - 1)
          | none => none),
        r.max_per_user, r.available_from, r.available_until,
        r.requires_shipping, r.total_redeemed + 1⟩
      (⟨p.1, st.txs ++ [p.2], r', st.user_redemptions ++ [red]⟩, .ok red)

/-- An in-memory `LessonProgress` instance as the `post_save` handler sees
it: the completion flag, the reward configured on the lesson, identifiers,
and `guard_set` = presence of the `_lesson_just_completed` attribute, which
exists only on this Python object — a fresh instance loaded for a later
save starts with `guard_set = false`. -/
structure LessonProgressInst where
  student : Nat
  is_completed : Bool
  guard_set : Bool
  lesson_id : Nat
  course_id : Nat
  lesson_title : String
  lesson_reward : Nat
deriving Repr, DecidableEq

/-- The reference update after a lesson credit (`signals.py` lines 55-61). -/
def updateRelatedLesson (title : String) (lesson_id course_id : Nat)
    (txs : List Tx) : List Tx :=
  txs.map fun t =>
    if strContains t.description title then
      ⟨t.transaction_type, t.amount, t.balance_after, t.description,
        some course_id, some lesson_id, t.related_quiz, t.related_achievement⟩
    else t

/-- `reward_lesson_completion` (`signals.py` lines 31-68): skip when the
guard attribute is present; otherwise set it on the instance, credit the
lesson's reward when positive (type `lesson_completed`), stamp the matching
transactions, and run the achievement evaluation.  Only
`FOREWallet.DoesNotExist` is caught, so any ledger error escapes. -/
def reward_lesson_completion (catalog : List Achievement)
    (stats : ActivityStats) (inst : LessonProgressInst) (st : EngineState) :
    LessonProgressInst × EngineState × Option WalletError :=
  if inst.is_completed ∧ inst.guard_set then (inst, st, none)
  else if inst.is_completed then
    let inst' : LessonProgressInst := ⟨inst.student, inst.is_completed, true,
      inst.lesson_id, inst.course_id, inst.lesson_title, inst.lesson_reward⟩
    if 0 < inst.lesson_reward then
      match st.wallet.add_tokens (inst.lesson_reward : ℤ)
          ("Lección completada: " ++ inst.lesson_title) ("lesson_completed") with
      | .ok p =>
        let st1 : EngineState := ⟨st.grants, p.1,
          updateRelatedLesson inst.lesson_title inst.lesson_id inst.course_id
            (st.txs ++ [p.2])⟩
        let rr := check_achievements_for_user catalog inst.student
          ("lesson_completed") stats st1
        (inst', rr.state, rr.err)
      | .error e => (inst', st, some e)
    else
      let rr := check_achievements_for_user catalog inst.student
        ("lesson_completed") stats st
      (inst', rr.state, rr.err)
  else (inst, st, none)

/-- An in-memory `QuizAttempt` instance as the `post_save` handler sees it;
`guard_set` = presence of the `_quiz_just_passed` attribute. -/
structure QuizAttemptInst where
  student : Nat
  is_passed : Bool
  is_completed : Bool
  guard_set : Bool
  quiz_id : Nat
  lesson_id : Nat
  course_id : Nat
  quiz_title : String
  quiz_reward : Nat
deriving Repr, DecidableEq

/-- The reference update after a quiz credit (`signals.py` lines 91-98). -/
def updateRelatedQuiz (title : String) (quiz_id lesson_id course_id : Nat)
    (txs : List Tx) : List Tx :=
  txs.map fun t =>
    if strContains t.description title then
      ⟨t.transaction_type, t.amount, t.balance_after, t.description,
        some course_id, some lesson_id, some quiz_id, t.related_achievement⟩
    else t

/-- `reward_quiz_completion` (`signals.py` lines 71-104): on a save of a
passed, completed attempt whose instance lacks the guard attribute, set the
guard, credit the quiz's reward when positive (type `quiz_passed`), stamp
references, and run the achievement evaluation. -/
def reward_quiz_completion (catalog : List Achievement)
    (stats : ActivityStats) (inst : QuizAttemptInst) (st : EngineState) :
    QuizAttemptInst × EngineState × Option WalletError :=
  if inst.is_passed ∧ inst.is_completed ∧ inst.guard_set = false then
    let inst' : QuizAttemptInst := ⟨inst.student, inst.is_passed,
      inst.is_completed, true, inst.quiz_id, inst.lesson_id, inst.course_id,
      inst.quiz_title, inst.quiz_reward⟩
    if 0 < inst.quiz_reward then
      match st.wallet.add_tokens (inst.quiz_reward : ℤ)
          ("Quiz aprobado: " ++ inst.quiz_title) ("quiz_passed") with
      | .ok p =>
        let st1 : EngineState := ⟨st.grants, p.1,
          updateRelatedQuiz inst.quiz_title inst.quiz_id inst.lesson_id
            inst.course_id (st.txs ++ [p.2])⟩
        let rr := check_achievements_for_user catalog inst.student
          ("quiz_passed") stats st1
        (inst', rr.state, rr.err)
      | .error e => (inst', st, some e)
    else
      let rr := check_achievements_for_user catalog inst.student
        ("quiz_passed") stats st
      (inst', rr.state, rr.err)
  else (inst, st, none)

/-- Repeated processing of save events for the same completed lesson, each
on a freshly loaded instance (so without the in-memory guard attribute),
stopping at the first uncaught error. -/
def iterLessonSaves (catalog : List Achievement) (stats : ActivityStats)
    (inst : LessonProgressInst) : Nat → EngineState → EngineState × Option WalletError
  | 0, st => (st, none)
  | n + 1, st =>
    let r := reward_lesson_completion catalog stats inst st
    match r.2.2 with
    | none => iterLessonSaves catalog stats inst n r.2.1
    | some e => (r.2.1, some e)

/-- Repeated processing of save events for the same passed quiz attempt,
each on a freshly loaded instance. -/
def iterQuizSaves (catalog : List Achievement) (stats : ActivityStats)
    (inst : QuizAttemptInst) : Nat → EngineState → EngineState × Option WalletError
  | 0, st => (st, none)
  | n + 1, st =>
    let r := reward_quiz_completion catalog stats inst st
    match r.2.2 with
    | none => iterQuizSaves catalog stats inst n r.2.1
    | some e => (r.2.1, some e)

/-! ## Ledger lemmas (claims C2-C5) -/

/-- Inversion of a successful credit: the wallet and log updates performed
by `add_tokens`. -/
lemma applyOp_credit_ok_inv {st stm : WalletState} {a : ℤ} {d t : String}
    (h : applyOp st (.credit a d t) = .ok stm) :
    stm.wallet = ⟨st.wallet.balance + a, st.wallet.total_earned + a,
        st.wallet.total_spent, st.wallet.frozen_amount⟩ ∧
    stm.txs = st.txs ++
      [⟨t, a, st.wallet.balance + a, d, none, none, none, none⟩] := by
  by_cases hc : a ≤ 0
  · simp [applyOp, FOREWallet.add_tokens, hc] at h
  · simp only [applyOp, FOREWallet.add_tokens, if_neg hc] at h
    cases h
    exact ⟨rfl, rfl⟩

/-- Inversion of a successful debit: the wallet and log updates performed
by `spend_tokens`. -/
lemma applyOp_debit_ok_inv {st stm : WalletState} {a : ℤ} {d t : String}
    (h : applyOp st (.debit a d t) = .ok stm) :
    stm.wallet = ⟨st.wallet.balance - a, st.wallet.total_earned,
        st.wallet.total_spent + a, st.wallet.frozen_amount⟩ ∧
    stm.txs = st.txs ++
      [⟨t, -a, st.wallet.balance - a, d, none, none, none, none⟩] := by
  by_cases hc : st.wallet.can_spend a = false
  · simp [applyOp, FOREWallet.spend_tokens, hc] at h
  · simp only [applyOp, FOREWallet.spend_tokens, if_neg hc] at h
    cases h
    exact ⟨rfl, rfl⟩

/-- Accounting effect of a whole successful run: final balance, earned and
spent totals move exactly by the credited and debited sums. -/
lemma runOps_totals (ops : List WalletOp) :
    ∀ st st' : WalletState, runOps st ops = .ok st' →
      st'.wallet.balance = st.wallet.balance + creditSum ops - debitSum ops ∧
      st'.wallet.total_earned = st.wallet.total_earned + creditSum ops ∧
      st'.wallet.total_spent = st.wallet.total_spent + debitSum ops := by
  induction ops with
  | nil =>
    intro st st' h
    cases h
    simp [creditSum, debitSum]
  | cons op rest ih =>
    intro st st' h
    rw [runOps] at h
    cases happ : applyOp st op with
    | error e => rw [happ] at h; cases h
    | ok stm =>
      rw [happ] at h
      obtain ⟨hb, he, hs⟩ := ih stm st' h
      cases op with
      | credit a d t =>
        obtain ⟨hw, -⟩ := applyOp_credit_ok_inv happ
        rw [hw] at hb he hs
        refine ⟨?_, ?_, ?_⟩ <;> simp [creditSum, debitSum, hb, he, hs] <;> ring
      | debit a d t =>
        obtain ⟨hw, -⟩ := applyOp_debit_ok_inv happ
        rw [hw] at hb he hs
        refine ⟨?_, ?_, ?_⟩ <;> simp [creditSum, debitSum, hb, he, hs] <;> ring

/-- A successful run over `pre ++ suf` passes through a successful run over
`pre`. -/
lemma runOps_append (pre suf : List WalletOp) :
    ∀ st st' : WalletState, runOps st (pre ++ suf) = .ok st' →
      ∃ stm, runOps st pre = .ok stm ∧ runOps stm suf = .ok st' := by
  induction pre with
  | nil => exact fun st st' h => ⟨st, rfl, h⟩
  | cons op rest ih =>
    intro st st' h
    rw [List.cons_append, runOps] at h
    cases happ : applyOp st op with
    | error e => rw [happ] at h; cases h
    | ok stm =>
      rw [happ] at h
      obtain ⟨stp, h1, h2⟩ := ih stm st' h
      exact ⟨stp, by rw [runOps, happ]; exact h1, h2⟩

lemma lastBalanceFrom_append (xs : List Tx) :
    ∀ (p : ℤ) (t : Tx), lastBalanceFrom p (xs ++ [t]) = t.balance_after := by
  induction xs with
  | nil => intro p t; rfl
  | cons x rest ih => intro p t; exact ih x.balance_after t

lemma txChain_append (xs : List Tx) :
    ∀ (p : ℤ) (t : Tx), txChain p (xs ++ [t]) ↔
      txChain p xs ∧ t.balance_after = lastBalanceFrom p xs + t.amount := by
  induction xs with
  | nil => intro p t; simp [txChain, lastBalanceFrom]
  | cons x rest ih =>
    intro p t
    simp only [List.cons_append, txChain, lastBalanceFrom, List.append_eq]
    rw [ih x.balance_after t]
    tauto

/-- The running invariant for the transaction log: the wallet balance is
the last `balance_after` snapshot and the chain property holds. -/
def ChainInv (st : WalletState) : Prop :=
  st.wallet.balance = lastBalanceFrom 0 st.txs ∧ txChain 0 st.txs

lemma applyOp_chainInv {st stm : WalletState} {op : WalletOp}
    (h : applyOp st op = .ok stm) (hinv : ChainInv st) : ChainInv stm := by
  obtain ⟨hbal, hchain⟩ := hinv
  cases op with
  | credit a d t =>
    obtain ⟨hw, htx⟩ := applyOp_credit_ok_inv h
    constructor
    · rw [hw, htx, lastBalanceFrom_append]
    · rw [htx, txChain_append]
      exact ⟨hchain, by simp [hbal]⟩
  | debit a d t =>
    obtain ⟨hw, htx⟩ := applyOp_debit_ok_inv h
    constructor
    · rw [hw, htx, lastBalanceFrom_append]
    · rw [htx, txChain_append]
      refine ⟨hchain, ?_⟩
      simp only [hbal]
      ring

lemma runOps_chainInv (ops : List WalletOp) :
    ∀ st st' : WalletState, runOps st ops = .ok st' →
      ChainInv st → ChainInv st' := by
  induction ops with
  | nil => intro st st' h hinv; cases h; exact hinv
  | cons op rest ih =>
    intro st st' h hinv
    rw [runOps] at h
    cases happ : applyOp st op with
    | error e => rw [happ] at h; cases h
    | ok stm =>
      rw [happ] at h
      exact ih stm st' h (applyOp_chainInv happ hinv)

/-- Each successful operation appends exactly one transaction row. -/
lemma runOps_txs_length (ops : List WalletOp) :
    ∀ st st' : WalletState, runOps st ops = .ok st' →
      st'.txs.length = st.txs.length + ops.length := by
  induction ops with
  | nil => intro st st' h; cases h; simp
  | cons op rest ih =>
    intro st st' h
    rw [runOps] at h
    cases happ : applyOp st op with
    | error e => rw [happ] at h; cases h
    | ok stm =>
      rw [happ] at h
      have hlen : stm.txs.length = st.txs.length + 1 := by
        cases op with
        | credit a d t => rw [(applyOp_credit_ok_inv happ).2]; simp
        | debit a d t => rw [(applyOp_debit_ok_inv happ).2]; simp
      rw [ih stm st' h, hlen]
      simp [Nat.add_assoc, Nat.add_comm 1]

/-- C2: for every finite sequence of successful credit (`add_tokens`) and
debit (`spend_tokens`) operations starting from a fresh wallet, after every
operation (i.e. after every successful prefix of the run) the wallet
satisfies `balance = total_earned - total_spent`, and the final balance
equals the sum of credited amounts minus the sum of debited amounts. -/
theorem claim_C2_balance_conservation (ops : List WalletOp) (st : WalletState)
    (h : runOps initState ops = .ok st) :
    st.wallet.balance = creditSum ops - debitSum ops ∧
    st.wallet.balance = st.wallet.total_earned - st.wallet.total_spent ∧
    ∀ pre suf : List WalletOp, ops = pre ++ suf →
      ∃ stp, runOps initState pre = .ok stp ∧
        stp.wallet.balance = stp.wallet.total_earned - stp.wallet.total_spent := by
  have hfin := runOps_totals ops initState st h
  refine ⟨?_, ?_, ?_⟩
  · rw [hfin.1]; simp [initState, freshWallet]
  · rw [hfin.1, hfin.2.1, hfin.2.2]; simp [initState, freshWallet]
  · intro pre suf hsplit
    rw [hsplit] at h
    obtain ⟨stp, h1, -⟩ := runOps_append pre suf initState st h
    obtain ⟨hb, he, hs⟩ := runOps_totals pre initState stp h1
    refine ⟨stp, h1, ?_⟩
    rw [hb, he, hs]
    simp [initState, freshWallet]

/-- Witness for C2: the spec scenario credit 100 then debit 30. -/
theorem claim_C2_witness :
    ∃ st : WalletState,
      runOps initState
        [WalletOp.credit 100 ("") ("EARNED"), WalletOp.debit 30 ("") ("SPENT")] =
        .ok st ∧
      st.wallet.balance =
        creditSum
          [WalletOp.credit 100 ("") ("EARNED"), WalletOp.debit 30 ("") ("SPENT")] -
        debitSum
          [WalletOp.credit 100 ("") ("EARNED"), WalletOp.debit 30 ("") ("SPENT")] ∧
      st.wallet.balance = st.wallet.total_earned - st.wallet.total_spent := by
  refine ⟨⟨⟨70, 100, 30, 0⟩,
    [⟨("EARNED"), 100, 100, (""), none, none, none, none⟩,
      ⟨("SPENT"), -30, 70, (""), none, none, none, none⟩]⟩, by decide, ?_⟩
  have h := claim_C2_balance_conservation
    [WalletOp.credit 100 ("") ("EARNED"), WalletOp.debit 30 ("") ("SPENT")]
    ⟨⟨70, 100, 30, 0⟩,
      [⟨("EARNED"), 100, 100, (""), none, none, none, none⟩,
        ⟨("SPENT"), -30, 70, (""), none, none, none, none⟩]⟩
    (by decide)
  exact ⟨h.1, h.2.1⟩

/-- C3: ordering a user's transactions by creation time (the order of the
log), `balance_after` of each transaction equals the previous
`balance_after` plus its signed amount, the first transaction of a wallet
started at zero has `balance_after = amount`, and exactly one transaction
is appended per successful credit/debit (the log is never mutated:
operations only ever append). -/
theorem claim_C3_transaction_chain (ops : List WalletOp) (st : WalletState)
    (h : runOps initState ops = .ok st) :
    txChain 0 st.txs ∧ st.txs.length = ops.length := by
  refine ⟨(runOps_chainInv ops initState st h ⟨rfl, trivial⟩).2, ?_⟩
  have := runOps_txs_length ops initState st h
  simpa [initState] using this

/-- Witness for C3 at the spec scenario credit 100 then debit 30. -/
theorem claim_C3_witness :
    ∃ st : WalletState,
      runOps initState
        [WalletOp.credit 100 ("") ("EARNED"), WalletOp.debit 30 ("") ("SPENT")] =
        .ok st ∧
      txChain 0 st.txs ∧ st.txs.length = 2 := by
  refine ⟨⟨⟨70, 100, 30, 0⟩,
    [⟨("EARNED"), 100, 100, (""), none, none, none, none⟩,
      ⟨("SPENT"), -30, 70, (""), none, none, none, none⟩]⟩, by decide, ?_⟩
  have h := claim_C3_transaction_chain
    [WalletOp.credit 100 ("") ("EARNED"), WalletOp.debit 30 ("") ("SPENT")]
    ⟨⟨70, 100, 30, 0⟩,
      [⟨("EARNED"), 100, 100, (""), none, none, none, none⟩,
        ⟨("SPENT"), -30, 70, (""), none, none, none, none⟩]⟩
    (by decide)
  exact ⟨h.1, h.2⟩

/-- C4: a debit of any amount strictly greater than the wallet's available
balance fails with `InsufficientBalance`; since the `raise` happens before
any mutation, the state-passing runner returns no new state, so balance,
totals and the transaction log are untouched. -/
theorem claim_C4_debit_rejects_overdraft (w : FOREWallet) (amount : ℤ)
    (d t : String) (h : w.available_balance < amount) :
    w.spend_tokens amount d t = .error .InsufficientBalance ∧
    ∀ st : WalletState, st.wallet = w →
      applyOp st (.debit amount d t) = .error .InsufficientBalance := by
  have hcs : w.can_spend amount = false := by
    simp [FOREWallet.can_spend, not_le.mpr h]
  constructor
  · simp [FOREWallet.spend_tokens, hcs]
  · intro st hst
    simp [applyOp, FOREWallet.spend_tokens, hst, hcs]

/-- Witness for C4: the spec scenario — balance 70, debit 1000 fails. -/
theorem claim_C4_witness :
    FOREWallet.spend_tokens ⟨70, 100, 30, 0⟩ 1000 ("") ("SPENT") =
      .error .InsufficientBalance :=
  (claim_C4_debit_rejects_overdraft ⟨70, 100, 30, 0⟩ 1000 ("") ("SPENT")
    (by decide)).1

/-- C5 as stated is false: `spend_tokens` has no positivity check — for the
fresh wallet and amount `-5`, `can_spend` holds (`-5 ≤ 0`), so the debit
SUCCEEDS instead of failing with `InvalidAmount`, mutating the wallet to
balance 5 and `total_spent` -5. -/
theorem claim_C5_counterexample :
    (freshWallet.spend_tokens (-5) ("") ("SPENT")).isOk = true ∧
    (freshWallet.spend_tokens (-5) ("") ("SPENT")).toOption.map Prod.fst =
      some ⟨5, 0, -5, 0⟩ := by
  constructor
  · rfl
  · rfl

/-- C5 amended: for every amount ≤ 0 the credit operation `add_tokens`
fails with `InvalidAmount` and (the exception being raised before any
mutation) leaves the wallet unchanged with no transaction appended; the
debit operation `spend_tokens` performs no such check — whenever
`amount ≤ available_balance` (always true for a non-positive amount on a
wallet with `frozen_amount ≤ balance`) it succeeds, increasing the balance
by `-amount` and adding the non-positive amount to `total_spent`. -/
theorem claim_C5_amended (w : FOREWallet) (amount : ℤ) (d t : String)
    (h : amount ≤ 0) :
    w.add_tokens amount d t = .error .InvalidAmount ∧
    (∀ st : WalletState, st.wallet = w →
      applyOp st (.credit amount d t) = .error .InvalidAmount) ∧
    (amount ≤ w.available_balance →
      w.spend_tokens amount d t =
        .ok (⟨w.balance - amount, w.total_earned, w.total_spent + amount,
            w.frozen_amount⟩,
          ⟨t, -amount, w.balance - amount, d, none, none, none, none⟩)) := by
  refine ⟨?_, ?_, ?_⟩
  · simp [FOREWallet.add_tokens, h]
  · intro st hst
    simp [applyOp, FOREWallet.add_tokens, hst, h]
  · intro h2
    have hcs : w.can_spend amount = true := by
      simp [FOREWallet.can_spend, h2]
    simp [FOREWallet.spend_tokens, hcs]

/-- Witness for the amended C5 at the fresh wallet and amount -5. -/
theorem claim_C5_witness :
    freshWallet.add_tokens (-5) ("") ("EARNED") = .error .InvalidAmount ∧
    freshWallet.spend_tokens (-5) ("") ("SPENT") =
      .ok (⟨freshWallet.balance - (-5), freshWallet.total_earned,
          freshWallet.total_spent + (-5), freshWallet.frozen_amount⟩,
        ⟨("SPENT"), -(-5), freshWallet.balance - (-5), (""), none, none, none,
          none⟩) :=
  ⟨(claim_C5_amended freshWallet (-5) ("") ("EARNED") (by decide)).1,
    (claim_C5_amended freshWallet (-5) ("") ("SPENT") (by decide)).2.2
      (by decide)⟩

/-! ## Achievement-engine lemmas (claims C1, C6, C7) -/

/-- Unfolding of the tokens-earned gate as a proposition. -/
lemma tokensGate_eq_true_iff (a : Achievement) (te : Option ℤ) :
    tokensGate a te = true ↔
      (0 < a.required_fore_tokens →
        ∃ q, te = some q ∧ (a.required_fore_tokens : ℤ) ≤ q) := by
  rcases te with _ | q
  · simp only [tokensGate]
    split_ifs with h
    · simp only [false_iff]
      intro hr
      obtain ⟨q, hq, -⟩ := hr h
      cases hq
    · simp only [true_iff]
      exact fun hpos => absurd hpos h
  · simp only [tokensGate]
    by_cases h : 0 < a.required_fore_tokens
    · rw [if_pos h]
      by_cases h2 : q < (a.required_fore_tokens : ℤ)
      · rw [if_pos h2]
        constructor
        · intro hc
          cases hc
        · intro hr
          obtain ⟨q', hq, hle⟩ := hr h
          cases hq
          omega
      · rw [if_neg h2]
        simp only [true_iff]
        exact fun _ => ⟨q, rfl, by omega⟩
    · rw [if_neg h]
      simp only [true_iff]
      exact fun hc => absurd hc h

/-- Unfolding of `check_achievement` as a conjunction of its blocks. -/
lemma check_achievement_eq_true_iff (a : Achievement) (grants : List Grant)
    (user : Nat) (stats : ActivityStats) (te : Option ℤ) :
    a.check_achievement grants user stats te = true ↔
      grantedTo grants user a.id = false ∧
      a.is_available grants = true ∧
      (0 < a.required_courses → a.required_courses ≤ stats.completed_courses) ∧
      (0 < a.required_lessons → a.required_lessons ≤ stats.completed_lessons) ∧
      (0 < a.required_quizzes → a.required_quizzes ≤ stats.passed_quizzes) ∧
      tokensGate a te = true := by
  unfold Achievement.check_achievement
  split_ifs with h1 h2 h3 h4 h5
  · simp [h1]
  · simp only [Bool.not_eq_true] at h1
    simp [h1, h2]
  · simp only [Bool.not_eq_true] at h1
    simp only [Bool.not_eq_false] at h2
    simp only [false_iff, h1, h2, true_and]
    intro hr
    exact absurd (hr.1 h3.1) (by omega)
  · simp only [Bool.not_eq_true] at h1
    simp only [Bool.not_eq_false] at h2
    simp only [false_iff, h1, h2, true_and]
    intro hr
    exact absurd (hr.2.1 h4.1) (by omega)
  · simp only [Bool.not_eq_true] at h1
    simp only [Bool.not_eq_false] at h2
    simp only [false_iff, h1, h2, true_and]
    intro hr
    exact absurd (hr.2.2.1 h5.1) (by omega)
  · simp only [Bool.not_eq_true] at h1
    simp only [Bool.not_eq_false] at h2
    simp only [h1, h2, true_and]
    constructor
    · intro ht
      exact ⟨fun hc => by omega, fun hl => by omega, fun hq => by omega, ht⟩
    · exact fun hr => hr.2.2.2

/-- An achievement already granted to the user never re-checks true. -/
lemma check_achievement_of_granted {a : Achievement} {grants : List Grant}
    {user : Nat} {stats : ActivityStats} {te : Option ℤ}
    (h : grantedTo grants user a.id = true) :
    a.check_achievement grants user stats te = false := by
  unfold Achievement.check_achievement
  simp [h]

lemma grantedTo_mono {l1 l2 : List Grant} (hsub : List.Sublist l1 l2) {user aid : Nat}
    (h : grantedTo l1 user aid = true) : grantedTo l2 user aid = true := by
  simp only [grantedTo, List.any_eq_true] at h ⊢
  obtain ⟨g, hg, hp⟩ := h
  exact ⟨g, hsub.subset hg, hp⟩

lemma recipientsCount_mono {l1 l2 : List Grant} (hsub : List.Sublist l1 l2) (aid : Nat) :
    recipientsCount l1 aid ≤ recipientsCount l2 aid :=
  List.Sublist.length_le (hsub.filter _)

lemma is_available_antitone {l1 l2 : List Grant} (hsub : List.Sublist l1 l2)
    (a : Achievement) (h : a.is_available l2 = true) :
    a.is_available l1 = true := by
  unfold Achievement.is_available at h ⊢
  by_cases hact : a.is_active = false
  · rw [if_pos hact] at h
    cases h
  · rw [if_neg hact] at h ⊢
    cases hm : a.max_recipients with
    | none => simp [hm]
    | some m =>
      simp only [hm] at h ⊢
      by_cases hc : 0 < m ∧ m ≤ recipientsCount l2 a.id
      · rw [if_pos hc] at h
        cases h
      · rw [if_neg (fun hh : 0 < m ∧ m ≤ recipientsCount l1 a.id =>
          hc ⟨hh.1, Nat.le_trans hh.2 (recipientsCount_mono hsub a.id)⟩)]

/-- When no tokens-earned threshold is declared, `check_achievement` does
not read the wallet and is antitone in the grant table: a check that passes
against a larger table passes against any sub-table. -/
lemma check_achievement_antitone {l1 l2 : List Grant} (hsub : List.Sublist l1 l2)
    {a : Achievement} {user : Nat} {stats : ActivityStats}
    {te1 te2 : Option ℤ} (hreq : a.required_fore_tokens = 0)
    (h : a.check_achievement l2 user stats te2 = true) :
    a.check_achievement l1 user stats te1 = true := by
  rw [check_achievement_eq_true_iff] at h ⊢
  obtain ⟨hg, hav, hc, hl, hq, -⟩ := h
  refine ⟨?_, is_available_antitone hsub a hav, hc, hl, hq, ?_⟩
  · cases hgt : grantedTo l1 user a.id
    · rfl
    · rw [grantedTo_mono hsub hgt] at hg
      cases hg
  · rw [tokensGate_eq_true_iff]
    intro hpos
    rw [hreq] at hpos
    exact absurd hpos (by omega)

/-- C6 as stated is false: the streak-days criterion is declared but never
checked (the block is a TODO in the source).  The achievement "Constancia"
(`required_streak_days = 7`, all other thresholds 0) is active, available
and ungranted, the user's streak is 0, yet `check_achievement` returns
true although not every declared non-zero threshold is met. -/
theorem claim_C6_counterexample :
    Achievement.check_achievement
      ⟨1, "Constancia", 75, 0, 0, 0, 7, 0, true, false, none⟩ [] 1
      ⟨0, 0, 0, 0⟩ (some 0) = true ∧
    specThresholdsMet ⟨1, "Constancia", 75, 0, 0, 0, 7, 0, true, false, none⟩
      ⟨0, 0, 0, 0⟩ 0 = false := by
  constructor
  · decide
  · decide

/-- C6 amended: for an active, available achievement not yet granted to the
user, `check_achievement` returns true iff every non-zero threshold among
`required_courses`, `required_lessons`, `required_quizzes` and
`required_fore_tokens` is met by the user's stats (logical AND); the
`required_streak_days` threshold is declared but never checked. -/
theorem claim_C6_amended (a : Achievement) (grants : List Grant) (user : Nat)
    (stats : ActivityStats) (te : ℤ)
    (hg : grantedTo grants user a.id = false)
    (hav : a.is_available grants = true) :
    a.check_achievement grants user stats (some te) = true ↔
      ((0 < a.required_courses → a.required_courses ≤ stats.completed_courses) ∧
        (0 < a.required_lessons → a.required_lessons ≤ stats.completed_lessons) ∧
        (0 < a.required_quizzes → a.required_quizzes ≤ stats.passed_quizzes) ∧
        (0 < a.required_fore_tokens → (a.required_fore_tokens : ℤ) ≤ te)) := by
  rw [check_achievement_eq_true_iff, tokensGate_eq_true_iff]
  simp [hg, hav]

/-- Witness for the amended C6: the catalog achievement "Estudiante Activo"
(10 lessons) checks true for a user with exactly 10 completed lessons. -/
theorem claim_C6_witness :
    Achievement.check_achievement
      ⟨2, "Estudiante Activo", 50, 0, 10, 0, 0, 0, true, false, none⟩ [] 1
      ⟨0, 10, 0, 0⟩ (some 0) = true :=
  (claim_C6_amended ⟨2, "Estudiante Activo", 50, 0, 10, 0, 0, 0, true, false,
      none⟩ [] 1 ⟨0, 10, 0, 0⟩ 0 (by decide) (by decide)).mpr
    (by decide)

/-- Signal handlers never touch the grant table other than through the
event that fired them: `reward_achievement_earned` only credits the wallet
and stamps transactions. -/
lemma reward_grants_eq (t : String) (aid : Nat) (g : Grant)
    (st : EngineState) :
    (rewardAchievementEarned t aid g st).1.grants = st.grants := by
  unfold rewardAchievementEarned
  split <;> rfl

lemma runAvail_nil (u : Nat) (aty : String) (stats : ActivityStats)
    (st : EngineState) : runAvail u aty stats [] st = ⟨st, [], none⟩ := rfl

lemma runAvail_cons (u : Nat) (aty : String) (stats : ActivityStats)
    (a : Achievement) (rest : List Achievement) (st : EngineState) :
    runAvail u aty stats (a :: rest) st =
      match (grantStep u aty stats st a).err with
      | some e => ⟨(grantStep u aty stats st a).state,
          (grantStep u aty stats st a).granted, some e⟩
      | none =>
        ⟨(runAvail u aty stats rest (grantStep u aty stats st a).state).state,
          (grantStep u aty stats st a).granted ++
            (runAvail u aty stats rest (grantStep u aty stats st a).state).granted,
          (runAvail u aty stats rest (grantStep u aty stats st a).state).err⟩ :=
  rfl

/-- An unsatisfied achievement is a complete no-op for the loop step. -/
lemma grantStep_not_sat {u : Nat} {aty : String} {stats : ActivityStats}
    {st : EngineState} {a : Achievement}
    (hch : a.check_achievement st.grants u stats (some st.wallet.total_earned) =
      false) : grantStep u aty stats st a = ⟨st, [], none⟩ := by
  simp [grantStep, hch]

/-- A satisfied achievement grants exactly the one new row. -/
lemma grantStep_sat_granted {u : Nat} {aty : String} {stats : ActivityStats}
    {st : EngineState} {a : Achievement}
    (hch : a.check_achievement st.grants u stats (some st.wallet.total_earned) =
      true) :
    (grantStep u aty stats st a).granted =
      [⟨u, a.id, a.fore_tokens_reward, mkSnapshot aty stats st⟩] := by
  simp [grantStep, hch]

lemma grantStep_state_grants_sat {u : Nat} {aty : String}
    {stats : ActivityStats} {st : EngineState} {a : Achievement}
    (hch : a.check_achievement st.grants u stats (some st.wallet.total_earned) =
      true) :
    (grantStep u aty stats st a).state.grants =
      st.grants ++ [⟨u, a.id, a.fore_tokens_reward, mkSnapshot aty stats st⟩] := by
  simp [grantStep, hch, reward_grants_eq]

/-- The step only ever appends its granted rows to the grant table. -/
lemma grantStep_grants (u : Nat) (aty : String) (stats : ActivityStats)
    (st : EngineState) (a : Achievement) :
    (grantStep u aty stats st a).state.grants =
      st.grants ++ (grantStep u aty stats st a).granted := by
  cases hch : a.check_achievement st.grants u stats (some st.wallet.total_earned) with
  | false => rw [grantStep_not_sat hch]; simp
  | true => rw [grantStep_state_grants_sat hch, grantStep_sat_granted hch]

/-- A whole run only ever appends its granted rows to the grant table. -/
lemma runAvail_grants (u : Nat) (aty : String) (stats : ActivityStats) :
    ∀ (avail : List Achievement) (st : EngineState),
      (runAvail u aty stats avail st).state.grants =
        st.grants ++ (runAvail u aty stats avail st).granted := by
  intro avail
  induction avail with
  | nil => intro st; simp [runAvail_nil]
  | cons a rest ih =>
    intro st
    rw [runAvail_cons]
    cases hre : (grantStep u aty stats st a).err with
    | some e => simpa using grantStep_grants u aty stats st a
    | none =>
      have h1 := grantStep_grants u aty stats st a
      have h2 := ih (grantStep u aty stats st a).state
      simp only []
      rw [h2, h1, List.append_assoc]

/-- The uniqueness backstop is preserved by one loop step: a satisfied
check implies no existing row for the pair, so appending the new row keeps
the table duplicate-free. -/
lemma grantStep_nodup {u : Nat} {aty : String} {stats : ActivityStats}
    {st : EngineState} (a : Achievement) (h : NoDupPairs st.grants) :
    NoDupPairs (grantStep u aty stats st a).state.grants := by
  cases hch : a.check_achievement st.grants u stats (some st.wallet.total_earned) with
  | false => rw [grantStep_not_sat hch]; exact h
  | true =>
    rw [grantStep_state_grants_sat hch]
    have hng : grantedTo st.grants u a.id = false :=
      ((check_achievement_eq_true_iff a st.grants u stats
        (some st.wallet.total_earned)).mp hch).1
    simp only [NoDupPairs] at h ⊢
    rw [List.pairwise_append]
    refine ⟨h, List.pairwise_singleton _ _, ?_⟩
    intro g1 hg1 g2 hg2
    rw [List.mem_singleton] at hg2
    subst hg2
    rintro ⟨hu, haid⟩
    have hgt : grantedTo st.grants u a.id = true := by
      rw [grantedTo, List.any_eq_true]
      exact ⟨g1, hg1, by simp [hu, haid]⟩
    rw [hgt] at hng
    cases hng

/-- The uniqueness backstop is preserved by the whole run. -/
lemma runAvail_nodup (u : Nat) (aty : String) (stats : ActivityStats) :
    ∀ (avail : List Achievement) (st : EngineState), NoDupPairs st.grants →
      NoDupPairs (runAvail u aty stats avail st).state.grants := by
  intro avail
  induction avail with
  | nil => intro st h; exact h
  | cons a rest ih =>
    intro st h
    rw [runAvail_cons]
    cases hre : (grantStep u aty stats st a).err with
    | some e => exact grantStep_nodup a h
    | none => exact ih (grantStep u aty stats st a).state (grantStep_nodup a h)

/-- After an error-free run over `avail`, every achievement of `avail`
that declares no tokens-earned threshold checks false against the final
grant table (it was either granted, or rejected for a reason that only
grows stronger as grants accumulate). -/
lemma runAvail_post_check_false (u : Nat) (aty : String)
    (stats : ActivityStats) :
    ∀ (avail : List Achievement) (st : EngineState),
      (∀ a ∈ avail, a.required_fore_tokens = 0) →
      (runAvail u aty stats avail st).err = none →
      ∀ a ∈ avail, ∀ te : Option ℤ,
        a.check_achievement (runAvail u aty stats avail st).state.grants u
          stats te = false := by
  intro avail
  induction avail with
  | nil =>
    intro st hall herr a ha
    cases ha
  | cons a rest ih =>
    intro st hall herr b hb te
    rw [runAvail_cons] at herr ⊢
    cases hre : (grantStep u aty stats st a).err with
    | some e => simp [hre] at herr
    | none =>
      simp only [hre] at herr ⊢
      rcases List.mem_cons.mp hb with hba | hbr
      · subst hba
        cases hch : b.check_achievement st.grants u stats
            (some st.wallet.total_earned) with
        | true =>
          have hmem : (⟨u, b.id, b.fore_tokens_reward,
              mkSnapshot aty stats st⟩ : Grant) ∈
              (runAvail u aty stats rest (grantStep u aty stats st b).state).state.grants := by
            rw [runAvail_grants, grantStep_state_grants_sat hch]
            simp
          apply check_achievement_of_granted
          rw [grantedTo, List.any_eq_true]
          exact ⟨_, hmem, by simp⟩
        | false =>
          have hstep : grantStep u aty stats st b = ⟨st, [], none⟩ :=
            grantStep_not_sat hch
          rw [hstep]
          have hsub : List.Sublist st.grants
              (runAvail u aty stats rest st).state.grants := by
            rw [runAvail_grants]
            exact List.sublist_append_left _ _
          cases hcc : b.check_achievement
              (runAvail u aty stats rest st).state.grants u stats te with
          | false => rfl
          | true =>
            have hback : b.check_achievement st.grants u stats
                (some st.wallet.total_earned) = true :=
              check_achievement_antitone hsub (hall b hb) hcc
            rw [hback] at hch
            cases hch
      · exact ih (grantStep u aty stats st a).state
          (fun c hc => hall c (List.mem_cons_of_mem a hc)) herr b hbr te

/-- If nothing is satisfied against the current state, the run is a
complete no-op. -/
lemma runAvail_no_sat (u : Nat) (aty : String) (stats : ActivityStats) :
    ∀ (avail : List Achievement) (st : EngineState),
      (∀ a ∈ avail, a.check_achievement st.grants u stats
        (some st.wallet.total_earned) = false) →
      runAvail u aty stats avail st = ⟨st, [], none⟩ := by
  intro avail
  induction avail with
  | nil => intro st h; rfl
  | cons a rest ih =>
    intro st h
    rw [runAvail_cons, grantStep_not_sat (h a (List.mem_cons_self a rest))]
    simp only []
    rw [ih st fun c hc => h c (List.mem_cons_of_mem a hc)]
    rfl

/-- `check_achievements_for_user` only appends grant rows. -/
lemma cafu_grants (catalog : List Achievement) (user : Nat) (aty : String)
    (stats : ActivityStats) (st : EngineState) :
    (check_achievements_for_user catalog user aty stats st).state.grants =
      st.grants ++ (check_achievements_for_user catalog user aty stats st).granted :=
  runAvail_grants user aty stats _ st

/-- C1 as stated is false: a second evaluation with unchanged activity
stats can still grant.  Catalog: achievement 1 "B" needs 100 lifetime FORE
(reward 50); achievement 2 "A" needs 1 lesson (reward 100).  The user has
completed 1 lesson and starts with a fresh wallet.  The first run rejects
"B" (0 < 100 tokens earned) and grants "A", whose reward credit raises
`total_earned` to 100; the second run — same user, identical activity
stats, nothing in between — then grants "B": a new grant caused solely by
the first run's own credits. -/
theorem claim_C1_counterexample :
    ((check_achievements_for_user
      [⟨1, "B", 50, 0, 0, 0, 0, 100, true, false, none⟩,
        ⟨2, "A", 100, 0, 1, 0, 0, 0, true, false, none⟩] 7 ("lesson_completed")
      ⟨0, 1, 0, 0⟩ ⟨[], freshWallet, []⟩).err = none) ∧
    (((check_achievements_for_user
      [⟨1, "B", 50, 0, 0, 0, 0, 100, true, false, none⟩,
        ⟨2, "A", 100, 0, 1, 0, 0, 0, true, false, none⟩] 7 ("lesson_completed")
      ⟨0, 1, 0, 0⟩ ⟨[], freshWallet, []⟩).granted.map fun g => g.achievement) =
      [2]) ∧
    (((check_achievements_for_user
      [⟨1, "B", 50, 0, 0, 0, 0, 100, true, false, none⟩,
        ⟨2, "A", 100, 0, 1, 0, 0, 0, true, false, none⟩] 7 ("lesson_completed")
      ⟨0, 1, 0, 0⟩
      (check_achievements_for_user
        [⟨1, "B", 50, 0, 0, 0, 0, 100, true, false, none⟩,
          ⟨2, "A", 100, 0, 1, 0, 0, 0, true, false, none⟩] 7
        ("lesson_completed") ⟨0, 1, 0, 0⟩
        ⟨[], freshWallet, []⟩).state).granted.map fun g => g.achievement) =
      [1]) := by
  refine ⟨by decide, by decide, by decide⟩

/-- A positive token reward makes the grant credit succeed, so the loop
step cannot raise. -/
lemma grantStep_err_none {u : Nat} {aty : String} {stats : ActivityStats}
    {st : EngineState} {a : Achievement} (h : 0 < a.fore_tokens_reward) :
    (grantStep u aty stats st a).err = none := by
  cases hch : a.check_achievement st.grants u stats
      (some st.wallet.total_earned) with
  | false => rw [grantStep_not_sat hch]
  | true =>
    have hnn : ¬ ((a.fore_tokens_reward : ℤ) ≤ 0) := by
      simp only [not_le]
      exact_mod_cast h
    simp only [grantStep, hch, if_true, rewardAchievementEarned,
      FOREWallet.add_tokens, if_neg hnn]

/-- When every available achievement carries a positive token reward, the
evaluation loop runs to completion without an uncaught error. -/
lemma runAvail_err_none (u : Nat) (aty : String) (stats : ActivityStats) :
    ∀ (avail : List Achievement) (st : EngineState),
      (∀ a ∈ avail, 0 < a.fore_tokens_reward) →
      (runAvail u aty stats avail st).err = none := by
  intro avail
  induction avail with
  | nil => intro st h; rfl
  | cons a rest ih =>
    intro st h
    rw [runAvail_cons]
    have he : (grantStep u aty stats st a).err = none :=
      grantStep_err_none (h a (List.mem_cons_self a rest))
    simp only [he]
    exact ih (grantStep u aty stats st a).state
      (fun c hc => h c (List.mem_cons_of_mem a hc))

/-- C1 amended: (uniqueness) the grant table never acquires a duplicate
(user, achievement) pair — `check_achievement` rejects already-granted
achievements, so every evaluation run preserves uniqueness; (idempotence)
when no catalog achievement declares a tokens-earned threshold and every
catalog achievement's token reward is positive, an evaluation run followed
by a second run for the same user with the same activity stats grants
nothing the second time.  Either proviso is necessary: a tokens-earned
threshold can become satisfied by the first run's own reward credits (the
counterexample), and a zero-reward grant makes the credit raise
`InvalidAmount`, aborting the first run before later achievements are
evaluated, which the second run then grants. -/
theorem claim_C1_amended (catalog : List Achievement) (user : Nat)
    (aty1 aty2 : String) (stats : ActivityStats) (st : EngineState) :
    (NoDupPairs st.grants →
      NoDupPairs (check_achievements_for_user catalog user aty1 stats st).state.grants) ∧
    ((∀ a ∈ catalog, a.required_fore_tokens = 0) →
      (∀ a ∈ catalog, 0 < a.fore_tokens_reward) →
      (check_achievements_for_user catalog user aty2 stats
        (check_achievements_for_user catalog user aty1 stats st).state).granted =
        []) := by
  constructor
  · intro hnd
    exact runAvail_nodup user aty1 stats _ st hnd
  · intro hall hpos
    have herr : (check_achievements_for_user catalog user aty1 stats
        st).err = none :=
      runAvail_err_none user aty1 stats _ st
        (fun b hb => hpos b (List.mem_filter.mp hb).1)
    have hsat : ∀ a ∈ (catalog.filter fun b =>
        b.is_active && ! grantedTo (check_achievements_for_user catalog user
          aty1 stats st).state.grants user b.id),
        a.check_achievement
          (check_achievements_for_user catalog user aty1 stats st).state.grants
          user stats
          (some (check_achievements_for_user catalog user aty1 stats
            st).state.wallet.total_earned) = false := by
      intro a ha
      rw [List.mem_filter] at ha
      obtain ⟨hcat, hcond⟩ := ha
      rw [Bool.and_eq_true] at hcond
      obtain ⟨hact, hng⟩ := hcond
      rw [Bool.not_eq_true'] at hng
      have hng0 : grantedTo st.grants user a.id = false := by
        cases hg0 : grantedTo st.grants user a.id with
        | false => rfl
        | true =>
          have hsub : List.Sublist st.grants
              (check_achievements_for_user catalog user aty1 stats
                st).state.grants := by
            rw [cafu_grants]
            exact List.sublist_append_left _ _
          rw [grantedTo_mono hsub hg0] at hng
          cases hng
      have ha1 : a ∈ catalog.filter fun b =>
          b.is_active && ! grantedTo st.grants user b.id := by
        rw [List.mem_filter, Bool.and_eq_true, Bool.not_eq_true']
        exact ⟨hcat, hact, hng0⟩
      exact runAvail_post_check_false user aty1 stats _ st
        (fun b hb => hall b (List.mem_filter.mp hb).1) herr a ha1 _
    show (runAvail user aty2 stats (catalog.filter fun b =>
      b.is_active && ! grantedTo (check_achievements_for_user catalog user
        aty1 stats st).state.grants user b.id)
      (check_achievements_for_user catalog user aty1 stats st).state).granted = []
    rw [runAvail_no_sat user aty2 stats _ _ hsat]

/-- Witness for the amended C1: a one-achievement catalog (1 lesson needed,
reward 10); the first run grants it without error, the table stays
duplicate-free and the second run grants nothing. -/
theorem claim_C1_witness :
    NoDupPairs (check_achievements_for_user
      [⟨1, "Primer Paso", 10, 0, 1, 0, 0, 0, true, false, none⟩] 7
      ("lesson_completed") ⟨0, 1, 0, 0⟩ ⟨[], freshWallet, []⟩).state.grants ∧
    (check_achievements_for_user
      [⟨1, "Primer Paso", 10, 0, 1, 0, 0, 0, true, false, none⟩] 7
      ("lesson_completed") ⟨0, 1, 0, 0⟩
      (check_achievements_for_user
        [⟨1, "Primer Paso", 10, 0, 1, 0, 0, 0, true, false, none⟩] 7
        ("lesson_completed") ⟨0, 1, 0, 0⟩
        ⟨[], freshWallet, []⟩).state).granted = [] :=
  ⟨(claim_C1_amended
      [⟨1, "Primer Paso", 10, 0, 1, 0, 0, 0, true, false, none⟩] 7
      ("lesson_completed") ("lesson_completed") ⟨0, 1, 0, 0⟩
      ⟨[], freshWallet, []⟩).1 List.Pairwise.nil,
    (claim_C1_amended
      [⟨1, "Primer Paso", 10, 0, 1, 0, 0, 0, true, false, none⟩] 7
      ("lesson_completed") ("lesson_completed") ⟨0, 1, 0, 0⟩
      ⟨[], freshWallet, []⟩).2 (by decide) (by decide)⟩

/-- A description built by appending the title always contains the title,
so the post-hoc reference update always stamps the freshly created credit
transaction. -/
lemma strContains_append_self (pre t : String) :
    strContains (pre ++ t) t = true := by
  unfold strContains
  rw [decide_eq_true_eq, String.data_append]
  exact (List.suffix_append pre.data t.data).isInfix

/-- C7 as stated is false on zero-reward achievements.  Achievement 3 "Z"
has `fore_tokens_reward = 0` and needs 1 lesson; the user qualifies.  The
grant inserts the `UserAchievement` row (snapshot 0), but the
`reward_achievement_earned` credit calls `add_tokens(0)`, which raises
`InvalidAmount`: no `achievement_earned` credit transaction is ever
created, and the uncaught exception aborts the evaluation run. -/
theorem claim_C7_counterexample :
    ((grantStep 7 ("lesson_completed") ⟨0, 1, 0, 0⟩ ⟨[], freshWallet, []⟩
      ⟨3, "Z", 0, 0, 1, 0, 0, 0, true, false, none⟩).granted.map fun g =>
        (g.achievement, g.fore_tokens_awarded)) = [(3, 0)] ∧
    (grantStep 7 ("lesson_completed") ⟨0, 1, 0, 0⟩ ⟨[], freshWallet, []⟩
      ⟨3, "Z", 0, 0, 1, 0, 0, 0, true, false, none⟩).err =
      some .InvalidAmount ∧
    (grantStep 7 ("lesson_completed") ⟨0, 1, 0, 0⟩ ⟨[], freshWallet, []⟩
      ⟨3, "Z", 0, 0, 1, 0, 0, 0, true, false, none⟩).state.txs = [] := by
  refine ⟨by decide, by decide, by decide⟩

/-- C7 amended: granting a satisfied achievement inserts exactly one
`UserAchievement` row whose `fore_tokens_awarded` snapshots the
achievement's current `fore_tokens_reward`; when the reward is positive,
exactly one ledger credit of that amount with transaction type
`achievement_earned` is appended and stamped with the achievement
reference; when the reward is 0, the row is still inserted but the credit
fails with `InvalidAmount` — no transaction is created and the error
escapes the handler. -/
theorem claim_C7_amended (user : Nat) (aty : String) (stats : ActivityStats)
    (st : EngineState) (a : Achievement)
    (hch : a.check_achievement st.grants user stats
      (some st.wallet.total_earned) = true) :
    (grantStep user aty stats st a).granted =
      [⟨user, a.id, a.fore_tokens_reward, mkSnapshot aty stats st⟩] ∧
    (grantStep user aty stats st a).state.grants =
      st.grants ++ [⟨user, a.id, a.fore_tokens_reward, mkSnapshot aty stats st⟩] ∧
    (0 < a.fore_tokens_reward →
      (grantStep user aty stats st a).err = none ∧
      (grantStep user aty stats st a).state.wallet =
        ⟨st.wallet.balance + (a.fore_tokens_reward : ℤ),
          st.wallet.total_earned + (a.fore_tokens_reward : ℤ),
          st.wallet.total_spent, st.wallet.frozen_amount⟩ ∧
      (grantStep user aty stats st a).state.txs =
        updateRelatedAchievement a.title a.id st.txs ++
          [⟨"achievement_earned", (a.fore_tokens_reward : ℤ),
            st.wallet.balance + (a.fore_tokens_reward : ℤ),
            "Logro obtenido: " ++ a.title, none, none, none, some a.id⟩]) ∧
    (a.fore_tokens_reward = 0 →
      (grantStep user aty stats st a).err = some .InvalidAmount ∧
      (grantStep user aty stats st a).state.wallet = st.wallet ∧
      (grantStep user aty stats st a).state.txs = st.txs) := by
  refine ⟨grantStep_sat_granted hch, grantStep_state_grants_sat hch, ?_, ?_⟩
  · intro hr
    have hnn : ¬ ((a.fore_tokens_reward : ℤ) ≤ 0) := by
      simp only [not_le]
      exact_mod_cast hr
    simp only [grantStep, hch, if_true, rewardAchievementEarned,
      FOREWallet.add_tokens, if_neg hnn]
    refine ⟨trivial, trivial, ?_⟩
    simp only [updateRelatedAchievement, List.map_append, List.map_cons,
      List.map_nil, strContains_append_self, if_true]
  · intro hr0
    have hle : (a.fore_tokens_reward : ℤ) ≤ 0 := by
      rw [hr0]
      exact le_refl 0
    simp only [grantStep, hch, if_true, rewardAchievementEarned,
      FOREWallet.add_tokens, if_pos hle]
    exact ⟨trivial, trivial, trivial⟩

/-- Witness for the amended C7: granting "A" (needs 1 lesson, reward 100)
to user 7 with a fresh wallet. -/
theorem claim_C7_witness :
    (grantStep 7 ("lesson_completed") ⟨0, 1, 0, 0⟩ ⟨[], freshWallet, []⟩
      ⟨2, "A", 100, 0, 1, 0, 0, 0, true, false, none⟩).granted =
      [⟨7, 2, 100, mkSnapshot ("lesson_completed") ⟨0, 1, 0, 0⟩
        ⟨[], freshWallet, []⟩⟩] ∧
    (grantStep 7 ("lesson_completed") ⟨0, 1, 0, 0⟩ ⟨[], freshWallet, []⟩
      ⟨2, "A", 100, 0, 1, 0, 0, 0, true, false, none⟩).err = none := by
  have h := claim_C7_amended 7 ("lesson_completed") ⟨0, 1, 0, 0⟩
    ⟨[], freshWallet, []⟩ ⟨2, "A", 100, 0, 1, 0, 0, 0, true, false, none⟩
    (by decide)
  exact ⟨h.1, (h.2.2.1 (by decide)).1⟩

/-! ## Leaderboard lemmas (claim C8) -/

lemma assignPositions_map_position (lb : Leaderboard) :
    ∀ (l : List (Nat × ℤ)) (pos : Nat),
      (assignPositions lb pos l).map (fun r => r.position) =
        posRange pos l.length := by
  intro l
  induction l with
  | nil => intro pos; rfl
  | cons p rest ih =>
    intro pos
    simp [assignPositions, posRange, ih]

lemma assignPositions_length (lb : Leaderboard) :
    ∀ (l : List (Nat × ℤ)) (pos : Nat),
      (assignPositions lb pos l).length = l.length := by
  intro l
  induction l with
  | nil => intro pos; rfl
  | cons p rest ih => intro pos; simp [assignPositions, ih]

lemma assignPositions_mem (lb : Leaderboard) :
    ∀ (l : List (Nat × ℤ)) (pos : Nat) (r : UserRanking),
      r ∈ assignPositions lb pos l →
        (∃ p ∈ l, r.score = p.2) ∧ r.reward_amount = rewardFor lb r.position := by
  intro l
  induction l with
  | nil => intro pos r hr; cases hr
  | cons p rest ih =>
    intro pos r hr
    rcases List.mem_cons.mp hr with h1 | h2
    · subst h1
      exact ⟨⟨p, List.mem_cons_self p rest, rfl⟩, rfl⟩
    · obtain ⟨⟨q, hq, hs⟩, hrw⟩ := ih (pos + 1) r h2
      exact ⟨⟨q, List.mem_cons_of_mem p hq, hs⟩, hrw⟩

lemma mem_insertScored :
    ∀ {l : List (Nat × ℤ)} {x p : Nat × ℤ}, x ∈ insertScored p l →
      x = p ∨ x ∈ l := by
  intro l
  induction l with
  | nil =>
    intro x p h
    rcases List.mem_singleton.mp h with h1
    exact Or.inl h1
  | cons q rest ih =>
    intro x p h
    rw [insertScored] at h
    split at h
    · exact List.mem_cons.mp h
    · rcases List.mem_cons.mp h with h1 | h2
      · exact Or.inr (h1 ▸ List.mem_cons_self q rest)
      · rcases ih h2 with h3 | h4
        · exact Or.inl h3
        · exact Or.inr (List.mem_cons_of_mem q h4)

lemma mem_sortScoredDesc :
    ∀ {l : List (Nat × ℤ)} {x : Nat × ℤ}, x ∈ sortScoredDesc l → x ∈ l := by
  intro l
  induction l with
  | nil => intro x h; cases h
  | cons q rest ih =>
    intro x h
    rcases mem_insertScored h with h1 | h2
    · exact h1 ▸ List.mem_cons_self q rest
    · exact List.mem_cons_of_mem q (ih h2)

/-- C8 as stated is false in its tie-breaking part: the source sorts only
by score (`sort(key=lambda x: x[1], reverse=True)`, a stable sort), so
equal scores keep queryset order — there is no secondary key.  Two
presentations of the same underlying data (users 1 and 2, identical
activity, both scoring 5) yield different (user, position) assignments
depending only on input order. -/
theorem claim_C8_counterexample :
    ((update_rankings ⟨.lessons_completed, .all_time, true, 100, 100, 75, 50⟩
      [(1, ⟨none, 0, 0, 5, 0, 0⟩), (2, ⟨none, 0, 0, 5, 0, 0⟩)]).map fun r =>
        (r.user, r.position)) = [(1, 1), (2, 2)] ∧
    ((update_rankings ⟨.lessons_completed, .all_time, true, 100, 100, 75, 50⟩
      [(2, ⟨none, 0, 0, 5, 0, 0⟩), (1, ⟨none, 0, 0, 5, 0, 0⟩)]).map fun r =>
        (r.user, r.position)) = [(2, 1), (1, 2)] := by
  refine ⟨by decide, by decide⟩

/-- C8 amended: `update_rankings` is a deterministic function of the
queryset (identical ordered input always reproduces the same rankings),
positions always form the contiguous range `1..N` with no gaps or
duplicates, truncated to `max_positions`, rankings contain only users with
score strictly greater than 0, and rewards follow the 1st/2nd/3rd
configuration; but ties are broken by queryset input order (stable sort on
the score alone), not by any dedicated secondary key. -/
theorem claim_C8_amended (lb : Leaderboard) (users : List (Nat × UserActivity)) :
    (update_rankings lb users).map (fun r => r.position) =
      posRange 1 (update_rankings lb users).length ∧
    (update_rankings lb users).length ≤ lb.max_positions ∧
    ((update_rankings lb users).all fun r => decide (0 < r.score)) = true ∧
    ((update_rankings lb users).all fun r =>
      decide (r.reward_amount = rewardFor lb r.position)) = true := by
  have hdef : update_rankings lb users =
      assignPositions lb 1 ((sortScoredDesc ((users.map fun p =>
        (p.1, scoreFor lb.category lb.period p.2)).filter fun p =>
          decide (0 < p.2))).take lb.max_positions) := rfl
  refine ⟨?_, ?_, ?_, ?_⟩
  · rw [hdef, assignPositions_map_position, assignPositions_length]
  · rw [hdef, assignPositions_length, List.length_take]
    exact min_le_left _ _
  · rw [List.all_eq_true]
    intro r hr
    rw [hdef] at hr
    obtain ⟨⟨p, hp, hs⟩, -⟩ := assignPositions_mem lb _ 1 r hr
    have hp1 : p ∈ sortScoredDesc ((users.map fun p =>
        (p.1, scoreFor lb.category lb.period p.2)).filter fun p =>
          decide (0 < p.2)) := (List.take_sublist _ _).subset hp
    have hp2 := List.of_mem_filter (mem_sortScoredDesc hp1)
    rw [decide_eq_true_eq] at hp2 ⊢
    rw [hs]
    exact hp2
  · rw [List.all_eq_true]
    intro r hr
    rw [hdef] at hr
    obtain ⟨-, hrw⟩ := assignPositions_mem lb _ 1 r hr
    exact decide_eq_true hrw

/-! ## Redemption lemmas (claim C9) -/

/-- A passing `can_redeem` implies the wallet can cover the cost (the
balance check is one of its branches), so the subsequent debit cannot
fail. -/
lemma can_redeem_can_spend {r : Reward} {now : Nat} {w : FOREWallet}
    {n : Nat} (h : (r.can_redeem now (some w) n).1 = true) :
    w.can_spend (r.fore_cost : ℤ) = true := by
  by_cases h2 : w.can_spend (r.fore_cost : ℤ) = false
  · exfalso
    simp only [Reward.can_redeem] at h
    by_cases h1 : r.is_available now = false
    · rw [if_pos h1] at h
      exact Bool.noConfusion h
    · rw [if_neg h1, if_pos h2] at h
      exact Bool.noConfusion h
  · cases hb : w.can_spend (r.fore_cost : ℤ) with
    | false => exact absurd hb h2
    | true => exact rfl

/-- C9: if any `can_redeem` precondition fails (availability including
stock, balance, per-user limit) the `redeem` view changes nothing — same
wallet, same transaction log, same reward row (stock and `total_redeemed`
included), no redemption row — and returns the error message; if
`can_redeem` passes, the view debits the wallet by `fore_cost` (appending
one `reward_purchase` transaction), appends the redemption row, decrements
finite stock by one and increments `total_redeemed` by one, all in the one
returned state. -/
theorem claim_C9_redemption_atomicity (st : RedeemState) (user now : Nat)
    (addr phone code : String) :
    ((st.reward.can_redeem now (some st.wallet)
        st.user_redemptions.length).1 = false →
      redeem st user now addr phone code =
        (st, .error (st.reward.can_redeem now (some st.wallet)
          st.user_redemptions.length).2)) ∧
    ((st.reward.can_redeem now (some st.wallet)
        st.user_redemptions.length).1 = true →
      redeem st user now addr phone code =
        (⟨⟨st.wallet.balance - (st.reward.fore_cost : ℤ),
            st.wallet.total_earned,
            st.wallet.total_spent + (st.reward.fore_cost : ℤ),
            st.wallet.frozen_amount⟩,
          st.txs ++ [⟨"reward_purchase", -(st.reward.fore_cost : ℤ),
            st.wallet.balance - (st.reward.fore_cost : ℤ),
            "Canje de recompensa: " ++ st.reward.title, none, none, none,
            none⟩],
          ⟨st.reward.title, st.reward.fore_cost, st.reward.is_active,
            (match st.reward.stock_quantity with
              | some s => some (s - 1)
              | none => none),
            st.reward.max_per_user, st.reward.available_from,
            st.reward.available_until, st.reward.requires_shipping,
            st.reward.total_redeemed + 1⟩,
          st.user_redemptions ++
            [⟨user, st.reward.fore_cost, addr, phone, code, "pending"⟩]⟩,
          .ok ⟨user, st.reward.fore_cost, addr, phone, code, "pending"⟩)) := by
  constructor
  · intro hfail
    simp only [redeem, if_pos hfail]
  · intro htrue
    have hne : ¬ ((st.reward.can_redeem now (some st.wallet)
        st.user_redemptions.length).1 = false) := by
      rw [htrue]
      exact fun hc => Bool.noConfusion hc
    have hcsne : ¬ (st.wallet.can_spend (st.reward.fore_cost : ℤ) = false) := by
      rw [can_redeem_can_spend htrue]
      exact fun hc => Bool.noConfusion hc
    simp only [redeem, if_neg hne, FOREWallet.spend_tokens, if_neg hcsne]

/-- Witness for C9: a user with balance 0 cannot redeem the 200-token mug
and nothing changes; a user with balance 500 redeems it — balance 300, one
`reward_purchase` transaction, stock 100 down to 99, `total_redeemed` 1,
one redemption row. -/
theorem claim_C9_witness :
    redeem ⟨⟨0, 0, 0, 0⟩, [],
        ⟨"Taza", 200, true, some 100, none, none, none, true, 0⟩, []⟩ 7 0
        ("addr") ("phone") ("CODE1234") =
      (⟨⟨0, 0, 0, 0⟩, [],
        ⟨"Taza", 200, true, some 100, none, none, none, true, 0⟩, []⟩,
        .error ("Balance FORE insuficiente")) ∧
    (redeem ⟨⟨500, 500, 0, 0⟩, [],
        ⟨"Taza", 200, true, some 100, none, none, none, true, 0⟩, []⟩ 7 0
        ("addr") ("phone") ("CODE1234")).1.wallet.balance = 300 ∧
    (redeem ⟨⟨500, 500, 0, 0⟩, [],
        ⟨"Taza", 200, true, some 100, none, none, none, true, 0⟩, []⟩ 7 0
        ("addr") ("phone") ("CODE1234")).1.reward.stock_quantity = some 99 ∧
    (redeem ⟨⟨500, 500, 0, 0⟩, [],
        ⟨"Taza", 200, true, some 100, none, none, none, true, 0⟩, []⟩ 7 0
        ("addr") ("phone") ("CODE1234")).1.reward.total_redeemed = 1 ∧
    (redeem ⟨⟨500, 500, 0, 0⟩, [],
        ⟨"Taza", 200, true, some 100, none, none, none, true, 0⟩, []⟩ 7 0
        ("addr") ("phone") ("CODE1234")).1.user_redemptions.length = 1 := by
  have h1 := (claim_C9_redemption_atomicity ⟨⟨0, 0, 0, 0⟩, [],
    ⟨"Taza", 200, true, some 100, none, none, none, true, 0⟩, []⟩ 7 0
    ("addr") ("phone") ("CODE1234")).1 (by decide)
  have h2 := (claim_C9_redemption_atomicity ⟨⟨500, 500, 0, 0⟩, [],
    ⟨"Taza", 200, true, some 100, none, none, none, true, 0⟩, []⟩ 7 0
    ("addr") ("phone") ("CODE1234")).2 (by decide)
  refine ⟨by rw [h1]; decide, by rw [h2]; decide, by rw [h2], by rw [h2],
    by rw [h2]; decide⟩

/-! ## Signal double-crediting lemmas (claim C10) -/

/-- The achievement evaluation with an empty catalog is a no-op. -/
lemma cafu_nil (user : Nat) (aty : String) (stats : ActivityStats)
    (st : EngineState) :
    check_achievements_for_user [] user aty stats st = ⟨st, [], none⟩ := rfl

/-- One save of a completed lesson on a fresh (guardless) instance, with no
achievements defined: the guard is set on the in-memory instance and the
lesson reward is credited once. -/
lemma lesson_step (stats : ActivityStats) (inst : LessonProgressInst)
    (st : EngineState) (h1 : inst.is_completed = true)
    (h2 : inst.guard_set = false) (h3 : 0 < inst.lesson_reward) :
    (reward_lesson_completion [] stats inst st).1 =
      ⟨inst.student, inst.is_completed, true, inst.lesson_id, inst.course_id,
        inst.lesson_title, inst.lesson_reward⟩ ∧
    (reward_lesson_completion [] stats inst st).2.2 = none ∧
    (reward_lesson_completion [] stats inst st).2.1.wallet.total_earned =
      st.wallet.total_earned + (inst.lesson_reward : ℤ) := by
  have hnand : ¬ (inst.is_completed = true ∧ inst.guard_set = true) := by
    rintro ⟨-, hg⟩
    rw [h2] at hg
    cases hg
  have hnn : ¬ ((inst.lesson_reward : ℤ) ≤ 0) := by
    simp only [not_le]
    exact_mod_cast h3
  unfold reward_lesson_completion
  rw [if_neg hnand, if_pos h1, if_pos h3]
  simp only [FOREWallet.add_tokens, if_neg hnn, cafu_nil]
  exact ⟨trivial, trivial, trivial⟩

/-- A second save seen by the same in-memory instance is a no-op: the
guard attribute is present. -/
lemma lesson_guard_noop (catalog : List Achievement) (stats : ActivityStats)
    (inst : LessonProgressInst) (st : EngineState)
    (h1 : inst.is_completed = true) (hg : inst.guard_set = true) :
    reward_lesson_completion catalog stats inst st = (inst, st, none) := by
  simp [reward_lesson_completion, h1, hg]

/-- One save of a passed quiz attempt on a fresh instance. -/
lemma quiz_step (stats : ActivityStats) (inst : QuizAttemptInst)
    (st : EngineState) (h1 : inst.is_passed = true)
    (h2 : inst.is_completed = true) (h3 : inst.guard_set = false)
    (h4 : 0 < inst.quiz_reward) :
    (reward_quiz_completion [] stats inst st).1 =
      ⟨inst.student, inst.is_passed, inst.is_completed, true, inst.quiz_id,
        inst.lesson_id, inst.course_id, inst.quiz_title, inst.quiz_reward⟩ ∧
    (reward_quiz_completion [] stats inst st).2.2 = none ∧
    (reward_quiz_completion [] stats inst st).2.1.wallet.total_earned =
      st.wallet.total_earned + (inst.quiz_reward : ℤ) := by
  have hnn : ¬ ((inst.quiz_reward : ℤ) ≤ 0) := by
    simp only [not_le]
    exact_mod_cast h4
  unfold reward_quiz_completion
  rw [if_pos (⟨h1, h2, h3⟩ : _ ∧ _ ∧ _), if_pos h4]
  simp only [FOREWallet.add_tokens, if_neg hnn, cafu_nil]
  exact ⟨trivial, trivial, trivial⟩

lemma iterLesson_total (stats : ActivityStats) (inst : LessonProgressInst)
    (h1 : inst.is_completed = true) (h2 : inst.guard_set = false)
    (h3 : 0 < inst.lesson_reward) :
    ∀ (n : Nat) (st : EngineState),
      (iterLessonSaves [] stats inst n st).2 = none ∧
      (iterLessonSaves [] stats inst n st).1.wallet.total_earned =
        st.wallet.total_earned + ((n * inst.lesson_reward : Nat) : ℤ) := by
  intro n
  induction n with
  | zero => intro st; simp [iterLessonSaves]
  | succ n ih =>
    intro st
    obtain ⟨-, herr, hte⟩ := lesson_step stats inst st h1 h2 h3
    rw [iterLessonSaves, herr]
    obtain ⟨ihe, ihte⟩ := ih (reward_lesson_completion [] stats inst st).2.1
    refine ⟨ihe, ?_⟩
    rw [ihte, hte]
    push_cast
    ring

lemma iterQuiz_total (stats : ActivityStats) (inst : QuizAttemptInst)
    (h1 : inst.is_passed = true) (h2 : inst.is_completed = true)
    (h3 : inst.guard_set = false) (h4 : 0 < inst.quiz_reward) :
    ∀ (n : Nat) (st : EngineState),
      (iterQuizSaves [] stats inst n st).2 = none ∧
      (iterQuizSaves [] stats inst n st).1.wallet.total_earned =
        st.wallet.total_earned + ((n * inst.quiz_reward : Nat) : ℤ) := by
  intro n
  induction n with
  | zero => intro st; simp [iterQuizSaves]
  | succ n ih =>
    intro st
    obtain ⟨-, herr, hte⟩ := quiz_step stats inst st h1 h2 h3 h4
    rw [iterQuizSaves, herr]
    obtain ⟨ihe, ihte⟩ := ih (reward_quiz_completion [] stats inst st).2.1
    refine ⟨ihe, ?_⟩
    rw [ihte, hte]
    push_cast
    ring

/-- C10: the double-crediting guard (`_lesson_just_completed` /
`_quiz_just_passed`) lives only on the in-memory instance.  A repeat call
on the same instance is indeed a no-op, but each save event processed on a
freshly loaded instance of an already-completed lesson (or passed quiz)
credits the configured reward again: n fresh saves credit n times the
reward — unbounded re-crediting of a single completion. -/
theorem claim_C10_fresh_instance_recredits (stats : ActivityStats)
    (n : Nat) (st : EngineState)
    (inst : LessonProgressInst) (hc : inst.is_completed = true)
    (hg : inst.guard_set = false) (hr : 0 < inst.lesson_reward)
    (qinst : QuizAttemptInst) (hqp : qinst.is_passed = true)
    (hqc : qinst.is_completed = true) (hqg : qinst.guard_set = false)
    (hqr : 0 < qinst.quiz_reward) :
    ((iterLessonSaves [] stats inst n st).2 = none ∧
      (iterLessonSaves [] stats inst n st).1.wallet.total_earned =
        st.wallet.total_earned + ((n * inst.lesson_reward : Nat) : ℤ)) ∧
    ((iterQuizSaves [] stats qinst n st).2 = none ∧
      (iterQuizSaves [] stats qinst n st).1.wallet.total_earned =
        st.wallet.total_earned + ((n * qinst.quiz_reward : Nat) : ℤ)) ∧
    (∀ st' : EngineState,
      reward_lesson_completion [] stats
        (reward_lesson_completion [] stats inst st).1 st' =
      ((reward_lesson_completion [] stats inst st).1, st', none)) := by
  refine ⟨iterLesson_total stats inst hc hg hr n st,
    iterQuiz_total stats qinst hqp hqc hqg hqr n st, ?_⟩
  intro st'
  obtain ⟨hinst, -, -⟩ := lesson_step stats inst st hc hg hr
  rw [hinst]
  exact lesson_guard_noop [] stats _ st' (by rw [hc]) rfl

/-- Witness for C10: a completed 10-token lesson processed twice on fresh
instances credits 20 tokens to a fresh wallet. -/
theorem claim_C10_witness :
    (iterLessonSaves [] ⟨0, 1, 0, 0⟩ ⟨7, true, false, 1, 1, "L1", 10⟩ 2
      ⟨[], freshWallet, []⟩).2 = none ∧
    (iterLessonSaves [] ⟨0, 1, 0, 0⟩ ⟨7, true, false, 1, 1, "L1", 10⟩ 2
      ⟨[], freshWallet, []⟩).1.wallet.total_earned = 20 := by
  have h := claim_C10_fresh_instance_recredits ⟨0, 1, 0, 0⟩ 2
    ⟨[], freshWallet, []⟩ ⟨7, true, false, 1, 1, "L1", 10⟩ rfl rfl
    (by decide) ⟨7, true, true, false, 1, 1, 1, "Q1", 15⟩ rfl rfl rfl
    (by decide)
  refine ⟨h.1.1, ?_⟩
  rw [h.1.2]
  decide

end CashForEnglish
